import Mathlib

/-!
Verification of the Tile Summary Engine of `python-wsi-preprocessing`
(`src/wsi/tile.py`): grid partitioning, scaled-to-original coordinate
remapping, tissue-quantity classification, aggregate statistics, top-tile
ranking and the batch-scheduler partitioning formula.

Numbers: Python floats carrying tissue percentages are modelled by `ℚ`
(only order comparisons against integer constants occur).  Pixel indices,
extents and slide numbers are `Nat`; the scheduler's float index arithmetic
is modelled by exact rational arithmetic, whose floors are `Nat` division.
-/

namespace Wsi

/-- Constant `TISSUE_THRESHOLD_PERCENT = 80` (src/wsi/tile.py:33). -/
def TISSUE_THRESHOLD_PERCENT : ℚ := 80

/-- Constant `TISSUE_LOW_THRESHOLD_PERCENT = 10` (src/wsi/tile.py:34). -/
def TISSUE_LOW_THRESHOLD_PERCENT : ℚ := 10

/-- Constant `ROW_TILE_SIZE = 1024` (src/wsi/tile.py:36). -/
def ROW_TILE_SIZE : Nat := 1024

/-- Constant `COL_TILE_SIZE = 1024` (src/wsi/tile.py:37). -/
def COL_TILE_SIZE : Nat := 1024

/-- Modelled from the spec: `slide.SCALE_FACTOR` is defined in `wsi/slide.py`,
which is not part of src/.  The spec fixes the scale factor as an integer
downsample ratio and its worked example (section 8) uses `s = 32`. -/
def SCALE_FACTOR : Nat := 32

/-- Ceiling division on `Nat`: for `0 < b` this equals Python's
`math.ceil(a / b)` (true division followed by ceiling). -/
def ceil_div (a b : Nat) : Nat := (a + b - 1) / b

/-- `get_num_tiles` (src/wsi/tile.py:53-70): number of vertical and
horizontal tiles, `(ceil(rows/row_tile_size), ceil(cols/col_tile_size))`. -/
def get_num_tiles (rows cols row_tile_size col_tile_size : Nat) : Nat × Nat :=
  (ceil_div rows row_tile_size, ceil_div cols col_tile_size)

/-- One record of the list built by `get_tile_indices`: starting row, ending
row, starting column, ending column, 1-based row number, 1-based column
number (src/wsi/tile.py:95). -/
structure TileIndex where
  r_s : Nat
  r_e : Nat
  c_s : Nat
  c_e : Nat
  r : Nat
  c : Nat
deriving DecidableEq, Repr

/-- Loop body of `get_tile_indices` (src/wsi/tile.py:89-95): the record
appended for grid position `(r, c)` (0-based). -/
def mk_tile_index (rows cols row_tile_size col_tile_size num_row_tiles num_col_tiles r c : Nat) :
    TileIndex :=
  { r_s := r * row_tile_size
    r_e := if r < num_row_tiles - 1 then (r + 1) * row_tile_size else rows
    c_s := c * col_tile_size
    c_e := if c < num_col_tiles - 1 then (c + 1) * col_tile_size else cols
    r := r + 1
    c := c + 1 }

/-- `get_tile_indices` (src/wsi/tile.py:73-96): the row-major list of tile
coordinate records (rows outer, columns inner). -/
def get_tile_indices (rows cols row_tile_size col_tile_size : Nat) : List TileIndex :=
  let num_row_tiles := (get_num_tiles rows cols row_tile_size col_tile_size).1
  let num_col_tiles := (get_num_tiles rows cols row_tile_size col_tile_size).2
  (List.range num_row_tiles).flatMap fun r =>
    (List.range num_col_tiles).map fun c =>
      mk_tile_index rows cols row_tile_size col_tile_size num_row_tiles num_col_tiles r c

/-- `get_tile_indices`, with Python's failure mode made explicit: a zero
`row_tile_size` or `col_tile_size` raises `ZeroDivisionError` inside
`get_num_tiles` (`rows / row_tile_size` is a true division by zero), every other
input returns the list.  Zero `rows`/`cols` is NOT checked anywhere in
src/wsi/tile.py. -/
def get_tile_indices_checked (rows cols row_tile_size col_tile_size : Nat) :
    Option (List TileIndex) :=
  if row_tile_size = 0 ∨ col_tile_size = 0 then none
  else some (get_tile_indices rows cols row_tile_size col_tile_size)

/-- `TissueQuantity` enumeration (src/wsi/tile.py:937-941). -/
inductive TissueQuantity where
  | NONE
  | LOW
  | MEDIUM
  | HIGH
deriving DecidableEq, Repr

/-- `tissue_quantity` (src/wsi/tile.py:554-571). -/
def tissue_quantity (tissue_percentage : ℚ) : TissueQuantity :=
  if tissue_percentage ≥ TISSUE_THRESHOLD_PERCENT then
    TissueQuantity.HIGH
  else if tissue_percentage ≥ TISSUE_LOW_THRESHOLD_PERCENT ∧
      tissue_percentage < TISSUE_THRESHOLD_PERCENT then
    TissueQuantity.MEDIUM
  else if tissue_percentage > 0 ∧ tissue_percentage < TISSUE_LOW_THRESHOLD_PERCENT then
    TissueQuantity.LOW
  else
    TissueQuantity.NONE

lemma tissue_quantity_of_high {p : ℚ} (h : 80 ≤ p) :
    tissue_quantity p = TissueQuantity.HIGH := by
  unfold tissue_quantity TISSUE_THRESHOLD_PERCENT TISSUE_LOW_THRESHOLD_PERCENT
  rw [if_pos h]

lemma tissue_quantity_of_medium {p : ℚ} (h1 : 10 ≤ p) (h2 : p < 80) :
    tissue_quantity p = TissueQuantity.MEDIUM := by
  unfold tissue_quantity TISSUE_THRESHOLD_PERCENT TISSUE_LOW_THRESHOLD_PERCENT
  rw [if_neg (not_le.mpr h2), if_pos ⟨h1, h2⟩]

lemma tissue_quantity_of_low {p : ℚ} (h1 : 0 < p) (h2 : p < 10) :
    tissue_quantity p = TissueQuantity.LOW := by
  unfold tissue_quantity TISSUE_THRESHOLD_PERCENT TISSUE_LOW_THRESHOLD_PERCENT
  have hlt : p < 80 := h2.trans (by norm_num)
  rw [if_neg (not_le.mpr hlt),
    if_neg (show ¬(p ≥ 10 ∧ p < 80) from fun ha => absurd h2 (not_lt.mpr ha.1)),
    if_pos ⟨h1, h2⟩]

lemma tissue_quantity_of_nonpos {p : ℚ} (h : p ≤ 0) :
    tissue_quantity p = TissueQuantity.NONE := by
  unfold tissue_quantity TISSUE_THRESHOLD_PERCENT TISSUE_LOW_THRESHOLD_PERCENT
  rw [if_neg (show ¬(p ≥ 80) from fun ha => absurd (le_trans ha h) (by norm_num)),
    if_neg (show ¬(p ≥ 10 ∧ p < 80) from fun ha => absurd (le_trans ha.1 h) (by norm_num)),
    if_neg (show ¬(p > 0 ∧ p < 10) from fun ha => absurd (lt_of_lt_of_le ha.1 h) (lt_irrefl 0))]

/-- Exactly one of the four classifier ranges applies to any rational. -/
lemma tissue_quantity_cases (p : ℚ) :
    (80 ≤ p ∧ tissue_quantity p = TissueQuantity.HIGH) ∨
    (10 ≤ p ∧ p < 80 ∧ tissue_quantity p = TissueQuantity.MEDIUM) ∨
    (0 < p ∧ p < 10 ∧ tissue_quantity p = TissueQuantity.LOW) ∨
    (p ≤ 0 ∧ tissue_quantity p = TissueQuantity.NONE) := by
  rcases le_or_lt 80 p with h80 | h80
  · exact Or.inl ⟨h80, tissue_quantity_of_high h80⟩
  rcases le_or_lt 10 p with h10 | h10
  · exact Or.inr (Or.inl ⟨h10, h80, tissue_quantity_of_medium h10 h80⟩)
  rcases lt_or_le 0 p with h0 | h0
  · exact Or.inr (Or.inr (Or.inl ⟨h0, h10, tissue_quantity_of_low h0 h10⟩))
  · exact Or.inr (Or.inr (Or.inr ⟨h0, tissue_quantity_of_nonpos h0⟩))

/-- C4: Tissue Classifier mapping.  For every tissue percentage `p` in
`[0,100]` the classifier returns `HIGH` iff `p ≥ 80`, `MEDIUM` iff
`10 ≤ p < 80`, `LOW` iff `0 < p < 10` and `NONE` iff `p = 0`; in particular
`p = 80` yields `HIGH`, `p = 10` yields `MEDIUM` and `p = 0` yields `NONE`. -/
theorem tissue_quantity_classification (p : ℚ) (h0 : 0 ≤ p) (h100 : p ≤ 100) :
    (tissue_quantity p = TissueQuantity.HIGH ↔ 80 ≤ p) ∧
    (tissue_quantity p = TissueQuantity.MEDIUM ↔ 10 ≤ p ∧ p < 80) ∧
    (tissue_quantity p = TissueQuantity.LOW ↔ 0 < p ∧ p < 10) ∧
    (tissue_quantity p = TissueQuantity.NONE ↔ p = 0) ∧
    tissue_quantity 80 = TissueQuantity.HIGH ∧
    tissue_quantity 10 = TissueQuantity.MEDIUM ∧
    tissue_quantity 0 = TissueQuantity.NONE := by
  have hc := tissue_quantity_cases p
  refine ⟨?_, ?_, ?_, ?_, tissue_quantity_of_high (by norm_num),
    tissue_quantity_of_medium (by norm_num) (by norm_num),
    tissue_quantity_of_nonpos (by norm_num)⟩ <;>
    constructor <;> intro h
  · rcases hc with ⟨h1, _⟩ | ⟨_, _, h2⟩ | ⟨_, _, h2⟩ | ⟨_, h2⟩ <;>
      first | exact h1 | (rw [h2] at h; exact absurd h (by simp))
  · exact tissue_quantity_of_high h
  · rcases hc with ⟨_, h2⟩ | ⟨h1a, h1b, _⟩ | ⟨_, _, h2⟩ | ⟨_, h2⟩ <;>
      first | exact ⟨h1a, h1b⟩ | (rw [h2] at h; exact absurd h (by simp))
  · exact tissue_quantity_of_medium h.1 h.2
  · rcases hc with ⟨_, h2⟩ | ⟨_, _, h2⟩ | ⟨h1a, h1b, _⟩ | ⟨_, h2⟩ <;>
      first | exact ⟨h1a, h1b⟩ | (rw [h2] at h; exact absurd h (by simp))
  · exact tissue_quantity_of_low h.1 h.2
  · rcases hc with ⟨_, h2⟩ | ⟨_, _, h2⟩ | ⟨_, _, h2⟩ | ⟨h1, _⟩ <;>
      first | exact le_antisymm h1 h0 | (rw [h2] at h; exact absurd h (by simp))
  · rw [h]; exact tissue_quantity_of_nonpos le_rfl

/-- Witness for C4 at the boundary inputs `80`, `10` and `0`. -/
theorem tissue_quantity_classification_witness :
    ((0:ℚ) ≤ 80 ∧ (80:ℚ) ≤ 100 ∧ tissue_quantity 80 = TissueQuantity.HIGH) ∧
    (tissue_quantity 10 = TissueQuantity.MEDIUM) ∧
    (tissue_quantity 0 = TissueQuantity.NONE) := by
  have h := tissue_quantity_classification 80 (by norm_num) (by norm_num)
  exact ⟨⟨by norm_num, by norm_num, h.2.2.2.2.1⟩, h.2.2.2.2.2.1, h.2.2.2.2.2.2⟩

/-- C10: the classifier is total over all inputs; anything outside the three
positive ranges -- in particular any negative percentage -- falls to the
final branch and returns `NONE`.  Formally the `NONE` result characterises
exactly the inputs `p ≤ 0`. -/
theorem tissue_quantity_total (p : ℚ) :
    (p < 0 → tissue_quantity p = TissueQuantity.NONE) ∧
    (tissue_quantity p = TissueQuantity.NONE ↔ p ≤ 0) := by
  refine ⟨fun h => tissue_quantity_of_nonpos h.le, ?_, fun h => tissue_quantity_of_nonpos h⟩
  intro h
  rcases tissue_quantity_cases p with ⟨_, h2⟩ | ⟨_, _, h2⟩ | ⟨_, _, h2⟩ | ⟨h1, _⟩ <;>
    first | exact h1 | (rw [h2] at h; exact absurd h (by simp))

/-- Witness for C10 at the negative input `-5`. -/
theorem tissue_quantity_total_witness :
    tissue_quantity (-5) = TissueQuantity.NONE :=
  (tissue_quantity_total (-5)).1 (by norm_num)

lemma le_ceil_div_mul {a b : Nat} (hb : 0 < b) : a ≤ ceil_div a b * b := by
  unfold ceil_div
  have h1 := Nat.div_add_mod (a + b - 1) b
  have h2 : (a + b - 1) % b < b := Nat.mod_lt _ hb
  rw [Nat.mul_comm]
  omega

lemma ceil_div_mul_le {a b : Nat} : ceil_div a b * b ≤ a + b - 1 :=
  Nat.div_mul_le_self _ _

lemma ceil_div_pos {a b : Nat} (ha : 0 < a) (hb : 0 < b) : 0 < ceil_div a b := by
  unfold ceil_div
  exact (Nat.le_div_iff_mul_le hb).mpr (by omega)

lemma div_lt_ceil_div {a b y : Nat} (hb : 0 < b) (hy : y < a) : y / b < ceil_div a b := by
  rw [Nat.div_lt_iff_lt_mul hb]
  exact lt_of_lt_of_le hy (le_ceil_div_mul hb)

/-- The nested row-major loops of `get_tile_indices`, flattened to a single
index running over `range (m * n)`, row `i / n`, column `i % n`. -/
lemma flatMap_range_map {α : Type} (f : Nat → Nat → α) (m n : Nat) :
    (List.range m).flatMap (fun r => (List.range n).map (f r)) =
      (List.range (m * n)).map (fun i => f (i / n) (i % n)) := by
  induction m with
  | zero => simp
  | succ m ih =>
    rcases Nat.eq_zero_or_pos n with hn | hn
    · subst hn
      simp [ih]
    · rw [List.range_succ, List.flatMap_append, ih, Nat.succ_mul, List.range_add,
        List.map_append, List.map_map]
      congr 1
      · simp only [List.flatMap_cons, List.flatMap_nil, List.append_nil]
        apply List.map_congr_left
        intro j hj
        have hjn : j < n := List.mem_range.mp hj
        have hd : (m * n + j) / n = m := by
          rw [Nat.mul_comm m n, Nat.mul_add_div hn, Nat.div_eq_of_lt hjn]
          omega
        have hm : (m * n + j) % n = j := by
          rw [Nat.mul_comm m n, Nat.mul_add_mod, Nat.mod_eq_of_lt hjn]
        simp [Function.comp, hd, hm]

/-- `get_tile_indices` in closed row-major form: entry `i` is the record for
grid position `(i / numColTiles, i % numColTiles)`. -/
lemma get_tile_indices_eq (rows cols rts cts : Nat) :
    get_tile_indices rows cols rts cts =
      (List.range ((get_num_tiles rows cols rts cts).1 * (get_num_tiles rows cols rts cts).2)).map
        (fun i => mk_tile_index rows cols rts cts (get_num_tiles rows cols rts cts).1
          (get_num_tiles rows cols rts cts).2
          (i / (get_num_tiles rows cols rts cts).2) (i % (get_num_tiles rows cols rts cts).2)) := by
  unfold get_tile_indices
  exact flatMap_range_map _ _ _

/-- Decidable point-in-tile test for the half-open rectangle
`[r_s, r_e) × [c_s, c_e)`. -/
def in_tile (y x : Nat) (t : TileIndex) : Bool :=
  decide (t.r_s ≤ y ∧ y < t.r_e ∧ t.c_s ≤ x ∧ x < t.c_e)

/-- On one axis, a point `y < rows` lies in the half-open extent of 0-based
row `r < m` exactly when `r = y / rts`. -/
lemma axis_mem_iff {rows rts m y r : Nat} (hts : 0 < rts) (hm : m = ceil_div rows rts)
    (hy : y < rows) (hr : r < m) :
    (r * rts ≤ y ∧ y < (if r < m - 1 then (r + 1) * rts else rows)) ↔ r = y / rts := by
  have hdiv : y / rts < m := hm ▸ div_lt_ceil_div hts hy
  have e1 : r * rts ≤ y ↔ r ≤ y / rts := (Nat.le_div_iff_mul_le hts).symm
  by_cases hlast : r < m - 1
  · rw [if_pos hlast]
    have e2 : y < (r + 1) * rts ↔ y / rts < r + 1 := (Nat.div_lt_iff_lt_mul hts).symm
    rw [e1, e2]
    omega
  · rw [if_neg hlast]
    constructor
    · rintro ⟨h1, _⟩
      have := e1.mp h1
      omega
    · rintro rfl
      exact ⟨e1.mpr le_rfl, hy⟩

lemma countP_range_eq_one {K N : Nat} (h : K < N) :
    (List.range N).countP (fun i => decide (i = K)) = 1 := by
  induction N with
  | zero => omega
  | succ N ih =>
    rw [List.range_succ, List.countP_append]
    rcases Nat.lt_or_ge K N with hK | hK
    · have : (List.countP (fun i => decide (i = K)) [N]) = 0 := by
        simp
        omega
      rw [ih hK, this]
    · have hKN : K = N := by omega
      have h0 : (List.range N).countP (fun i => decide (i = K)) = 0 := by
        rw [List.countP_eq_zero]
        intro a ha
        have := List.mem_range.mp ha
        simp
        omega
      subst hKN
      simp [h0]

/-- C2: Grid Partitioner exactness.  For positive `rows, cols, rts, cts` the
list returned by `get_tile_indices` has exactly
`ceil(rows/rts) * ceil(cols/cts)` entries; entry `i` is the row-major record
of grid position `(i / n, i % n)` with 1-based `r`/`c` labels; every record's
starts are `(index-1)*tileSize`, every non-last end is `index*tileSize` and
the last end is the image extent; and the half-open rectangles cover each
point of `[0,rows) × [0,cols)` exactly once. -/
theorem get_tile_indices_exact (rows cols rts cts : Nat)
    (hrows : 0 < rows) (hcols : 0 < cols) (hrts : 0 < rts) (hcts : 0 < cts) :
    (get_tile_indices rows cols rts cts).length =
        (get_num_tiles rows cols rts cts).1 * (get_num_tiles rows cols rts cts).2 ∧
    (∀ i, i < (get_num_tiles rows cols rts cts).1 * (get_num_tiles rows cols rts cts).2 →
      (get_tile_indices rows cols rts cts)[i]? =
        some (mk_tile_index rows cols rts cts (get_num_tiles rows cols rts cts).1
          (get_num_tiles rows cols rts cts).2
          (i / (get_num_tiles rows cols rts cts).2)
          (i % (get_num_tiles rows cols rts cts).2))) ∧
    (∀ t ∈ get_tile_indices rows cols rts cts,
      1 ≤ t.r ∧ t.r ≤ (get_num_tiles rows cols rts cts).1 ∧
      1 ≤ t.c ∧ t.c ≤ (get_num_tiles rows cols rts cts).2 ∧
      t.r_s = (t.r - 1) * rts ∧ t.c_s = (t.c - 1) * cts ∧
      (t.r < (get_num_tiles rows cols rts cts).1 → t.r_e = t.r * rts) ∧
      (t.r = (get_num_tiles rows cols rts cts).1 → t.r_e = rows) ∧
      (t.c < (get_num_tiles rows cols rts cts).2 → t.c_e = t.c * cts) ∧
      (t.c = (get_num_tiles rows cols rts cts).2 → t.c_e = cols)) ∧
    (∀ y x, y < rows → x < cols →
      (get_tile_indices rows cols rts cts).countP (in_tile y x) = 1) := by
  set m := (get_num_tiles rows cols rts cts).1 with hm
  set n := (get_num_tiles rows cols rts cts).2 with hn
  have hmdef : m = ceil_div rows rts := rfl
  have hndef : n = ceil_div cols cts := rfl
  have hmpos : 0 < m := hmdef ▸ ceil_div_pos hrows hrts
  have hnpos : 0 < n := hndef ▸ ceil_div_pos hcols hcts
  have heq := get_tile_indices_eq rows cols rts cts
  rw [← hm, ← hn] at heq
  refine ⟨?_, ?_, ?_, ?_⟩
  · rw [heq, List.length_map, List.length_range]
  · intro i hi
    rw [heq, List.getElem?_map, List.getElem?_range hi]
    rfl
  · intro t ht
    rw [heq, List.mem_map] at ht
    obtain ⟨i, hi, rfl⟩ := ht
    have hiN : i < m * n := List.mem_range.mp hi
    have hr : i / n < m := by
      rw [Nat.div_lt_iff_lt_mul hnpos]
      omega
    have hc : i % n < n := Nat.mod_lt _ hnpos
    dsimp only [mk_tile_index]
    refine ⟨Nat.succ_le_succ (Nat.zero_le _), hr, Nat.succ_le_succ (Nat.zero_le _), hc,
      by rw [Nat.add_sub_cancel],
      by rw [Nat.add_sub_cancel], ?_, ?_, ?_, ?_⟩
    · intro h
      rw [if_pos (by omega)]
    · intro h
      rw [if_neg (by omega)]
    · intro h
      rw [if_pos (by omega)]
    · intro h
      rw [if_neg (by omega)]
  · intro y x hy hx
    have hry : y / rts < m := hmdef ▸ div_lt_ceil_div hrts hy
    have hcx : x / cts < n := hndef ▸ div_lt_ceil_div hcts hx
    rw [heq, List.countP_map]
    have hcong : ∀ i ∈ List.range (m * n),
        (in_tile y x ∘ fun i => mk_tile_index rows cols rts cts m n (i / n) (i % n)) i = true ↔
          (fun i => decide (i = (y / rts) * n + x / cts)) i = true := by
      intro i hi
      have hiN : i < m * n := List.mem_range.mp hi
      have hr : i / n < m := by
        rw [Nat.div_lt_iff_lt_mul hnpos]
        omega
      have hc : i % n < n := Nat.mod_lt _ hnpos
      simp only [Function.comp, in_tile, mk_tile_index, decide_eq_true_eq]
      have hrow := axis_mem_iff hrts hmdef hy hr
      have hcol := axis_mem_iff hcts hndef hx hc
      constructor
      · rintro ⟨h1, h2, h3, h4⟩
        have er : i / n = y / rts := hrow.mp ⟨h1, h2⟩
        have ec : i % n = x / cts := hcol.mp ⟨h3, h4⟩
        have hsplit := Nat.div_add_mod i n
        rw [← er, ← ec, Nat.mul_comm (i / n) n]
        omega
      · intro hIK2
        have er : i / n = y / rts := by
          rw [hIK2, Nat.mul_comm (y / rts) n, Nat.mul_add_div hnpos, Nat.div_eq_of_lt hcx]
          omega
        have ec : i % n = x / cts := by
          rw [hIK2, Nat.mul_comm (y / rts) n, Nat.mul_add_mod, Nat.mod_eq_of_lt hcx]
        exact ⟨(hrow.mpr er).1, (hrow.mpr er).2, (hcol.mpr ec).1, (hcol.mpr ec).2⟩
    rw [List.countP_congr hcong]
    apply countP_range_eq_one
    calc (y / rts) * n + x / cts < (y / rts) * n + n := by omega
    _ = (y / rts + 1) * n := by rw [Nat.succ_mul]
    _ ≤ m * n := Nat.mul_le_mul_right n (by omega)

/-- Witness for C2 at `rows = 5, cols = 3, rts = 2, cts = 2` (a 3×2 grid),
evaluating the length and the exactly-once cover at the point `(4, 2)`. -/
theorem get_tile_indices_exact_witness :
    (get_tile_indices 5 3 2 2).length = 3 * 2 ∧
    (get_tile_indices 5 3 2 2).countP (in_tile 4 2) = 1 := by
  have h := get_tile_indices_exact 5 3 2 2 (by decide) (by decide) (by decide) (by decide)
  exact ⟨h.1, h.2.2.2 4 2 (by decide) (by decide)⟩

/-- Counterexample for C8: on `rows = 0` the partitioner does NOT reject; it
returns a result, namely the empty boundary list. -/
theorem zero_rows_returns_empty :
    get_tile_indices_checked 0 7 4 4 = some [] := by
  decide

/-- C8 amended: `get_tile_indices` performs no validation of `rows`/`cols`.
A zero image extent silently yields an empty boundary list (with positive
tile extents); only a zero tile extent fails, as Python's division by zero. -/
theorem zero_extent_behavior :
    (∀ rows cols rts cts : Nat, (rows = 0 ∨ cols = 0) → 0 < rts → 0 < cts →
      get_tile_indices_checked rows cols rts cts = some []) ∧
    (∀ rows cols rts cts : Nat, (rts = 0 ∨ cts = 0) →
      get_tile_indices_checked rows cols rts cts = none) := by
  constructor
  · intro rows cols rts cts hzero hrts hcts
    unfold get_tile_indices_checked
    rw [if_neg (by omega)]
    congr 1
    rw [get_tile_indices_eq]
    rcases hzero with hz | hz
    · subst hz
      have : (get_num_tiles 0 cols rts cts).1 = 0 := by
        show ceil_div 0 rts = 0
        unfold ceil_div
        exact Nat.div_eq_of_lt (by omega)
      rw [this]
      simp
    · subst hz
      have : (get_num_tiles rows 0 rts cts).2 = 0 := by
        show ceil_div 0 cts = 0
        unfold ceil_div
        exact Nat.div_eq_of_lt (by omega)
      rw [this]
      simp
  · intro rows cols rts cts hzero
    unfold get_tile_indices_checked
    rw [if_pos hzero]

/-- Witness for the C8 amended theorem at concrete inputs. -/
theorem zero_extent_behavior_witness :
    get_tile_indices_checked 6 0 4 4 = some [] ∧
    get_tile_indices_checked 6 6 0 4 = none :=
  ⟨zero_extent_behavior.1 6 0 4 4 (Or.inr rfl) (by decide) (by decide),
   zero_extent_behavior.2 6 6 0 4 (Or.inl rfl)⟩

/-- Python's `list(range(a, b + 1))`, the inclusive identifier range
`[a, b]` returned by `image_range_to_tile_summaries`
(src/wsi/tile.py:589-604). -/
def range_closed (a b : Nat) : List Nat := (List.range (b + 1 - a)).map (a + ·)

/-- Worker `i`'s start index, `int((num_process - 1) * images_per_process + 1)`
with `images_per_process = count / P` (src/wsi/tile.py:660,667,669); in exact
arithmetic `floor((i-1)*count/P) + 1`, which is the Nat-division expression
below. -/
def partition_start_index (count P i : Nat) : Nat := (i - 1) * count / P + 1

/-- Worker `i`'s end index, `int(num_process * images_per_process)`
(src/wsi/tile.py:668,670): `floor(i*count/P)`. -/
def partition_end_index (count P i : Nat) : Nat := i * count / P

/-- Numeric-range dispatch path (src/wsi/tile.py:676,688): worker `i` is given
`(start_index, end_index)` and `image_range_to_tile_summaries` returns the
inclusive range as its ordered output list. -/
def range_task_slides (count P i : Nat) : List Nat :=
  range_closed (partition_start_index count P i) (partition_end_index count P i)

/-- Explicit-list dispatch path (src/wsi/tile.py:672,686): worker `i` is given
the Python slice `image_num_list[start_index - 1 : end_index]`, which
`image_list_to_tile_summaries` returns unchanged. -/
def list_task_slides (l : List Nat) (P i : Nat) : List Nat :=
  (l.drop (partition_start_index l.length P i - 1)).take
    (partition_end_index l.length P i - (partition_start_index l.length P i - 1))

/-- The coordinator's collection loop (src/wsi/tile.py:690-693), numeric-range
path: `slide_nums.extend(result.get())` over tasks `1..P` in task order. -/
def scheduled_range_slides (count P : Nat) : List Nat :=
  (List.range P).flatMap fun k => range_task_slides count P (k + 1)

/-- The coordinator's collection loop (src/wsi/tile.py:690-693), explicit-list
path. -/
def scheduled_list_slides (l : List Nat) (P : Nat) : List Nat :=
  (List.range P).flatMap fun k => list_task_slides l P (k + 1)

lemma range_closed_append {a b c : Nat} (hab : a ≤ b + 1) (hbc : b ≤ c) :
    range_closed a b ++ range_closed (b + 1) c = range_closed a c := by
  unfold range_closed
  have h : c + 1 - a = (b + 1 - a) + (c - b) := by omega
  have h2 : c + 1 - (b + 1) = c - b := by omega
  rw [h, h2, List.range_add, List.map_append, List.map_map]
  congr 1
  apply List.map_congr_left
  intro j hj
  have := List.mem_range.mp hj
  simp only [Function.comp]
  omega

lemma partition_boundary_mono (count P m : Nat) :
    m * count / P ≤ (m + 1) * count / P :=
  Nat.div_le_div_right (Nat.mul_le_mul_right count (Nat.le_succ m))

lemma scheduled_range_telescope (count P m : Nat) :
    (List.range m).flatMap (fun k => range_task_slides count P (k + 1)) =
      range_closed 1 (m * count / P) := by
  induction m with
  | zero => simp [range_closed, Nat.zero_mul, Nat.zero_div]
  | succ m ih =>
    rw [List.range_succ, List.flatMap_append, ih]
    simp only [List.flatMap_cons, List.flatMap_nil, List.append_nil]
    unfold range_task_slides partition_start_index partition_end_index
    rw [Nat.add_sub_cancel]
    exact range_closed_append (Nat.succ_le_succ (Nat.zero_le _))
      (partition_boundary_mono count P m)

lemma scheduled_list_telescope (l : List Nat) (P m : Nat) :
    (List.range m).flatMap (fun k => list_task_slides l P (k + 1)) =
      l.take (m * l.length / P) := by
  induction m with
  | zero => simp [Nat.zero_mul, Nat.zero_div]
  | succ m ih =>
    rw [List.range_succ, List.flatMap_append, ih]
    simp only [List.flatMap_cons, List.flatMap_nil, List.append_nil]
    unfold list_task_slides partition_start_index partition_end_index
    rw [Nat.add_sub_cancel, Nat.add_sub_cancel]
    have hmono := partition_boundary_mono l.length P m
    rw [← List.take_add, Nat.add_sub_cancel' hmono]

/-- C1: Batch Scheduler partition coverage.  For `1 ≤ P ≤ count`, the
concatenation of the workers' partitions (partition `i` covering
`floor((i-1)*count/P)+1 .. floor(i*count/P)`) equals the full input: the
numeric-range path yields exactly the identifiers `1..count` (each exactly
once, in order) and the explicit-list path yields exactly the input list. -/
theorem multiprocess_partition_coverage (count P : Nat) (l : List Nat)
    (hP1 : 1 ≤ P) (hP2 : P ≤ count) (hl : l.length = count) :
    scheduled_range_slides count P = range_closed 1 count ∧
    scheduled_list_slides l P = l := by
  have hPpos : 0 < P := hP1
  constructor
  · unfold scheduled_range_slides
    rw [scheduled_range_telescope count P P, Nat.mul_div_cancel_left count hPpos]
  · unfold scheduled_list_slides
    rw [scheduled_list_telescope l P P, Nat.mul_div_cancel_left l.length hPpos,
      List.take_length]

/-- Witness for C1 at `count = 7`, `P = 3` and an explicit 7-slide list. -/
theorem multiprocess_partition_coverage_witness :
    scheduled_range_slides 7 3 = range_closed 1 7 ∧
    scheduled_list_slides [10, 20, 30, 40, 50, 60, 70] 3 = [10, 20, 30, 40, 50, 60, 70] :=
  multiprocess_partition_coverage 7 3 [10, 20, 30, 40, 50, 60, 70]
    (by decide) (by decide) (by decide)

/-- The coordinator's merged output (src/wsi/tile.py:690-693): the workers'
ordered output lists concatenated in task order. -/
def merged_slide_nums (worker_outputs : List (List Nat)) : List Nat :=
  worker_outputs.flatten

/-- The order in which `generate_tiled_html_result` hands slides to the
reporting collaborator: `slide_nums = sorted(slide_nums)` as its first step
(src/wsi/tile.py:782), ascending. -/
def reported_slide_order (worker_outputs : List (List Nat)) : List Nat :=
  (merged_slide_nums worker_outputs).mergeSort fun a b => decide (a ≤ b)

lemma nat_le_trans_bool (a b c : Nat) :
    decide (a ≤ b) → decide (b ≤ c) → decide (a ≤ c) := by
  simp only [decide_eq_true_eq]
  omega

lemma nat_le_total_bool (a b : Nat) : decide (a ≤ b) || decide (b ≤ a) := by
  simp only [Bool.or_eq_true, decide_eq_true_eq]
  omega

/-- C7: deterministic merge.  The reported order is always sorted ascending,
is a permutation of the concatenated worker outputs, and is invariant under
any permutation of the workers' output lists (hence independent of completion
or concatenation order). -/
theorem reported_order_deterministic :
    (∀ w : List (List Nat),
      List.Sorted (fun a b : Nat => a ≤ b) (reported_slide_order w) ∧
      (reported_slide_order w).Perm (merged_slide_nums w)) ∧
    (∀ w1 w2 : List (List Nat), w1.Perm w2 →
      reported_slide_order w1 = reported_slide_order w2) := by
  have hsorted : ∀ w : List (List Nat),
      List.Sorted (fun a b : Nat => a ≤ b) (reported_slide_order w) := by
    intro w
    have h := List.sorted_mergeSort nat_le_trans_bool nat_le_total_bool (merged_slide_nums w)
    exact h.imp fun hab => of_decide_eq_true hab
  constructor
  · intro w
    exact ⟨hsorted w, List.mergeSort_perm _ _⟩
  · intro w1 w2 hperm
    have hp : (reported_slide_order w1).Perm (reported_slide_order w2) :=
      ((List.mergeSort_perm _ _).trans ((hperm.flatten).trans
        (List.mergeSort_perm (merged_slide_nums w2) _).symm))
    exact List.eq_of_perm_of_sorted hp (hsorted w1) (hsorted w2)

/-- Witness for C7: two completion orders of the same worker outputs yield
the identical reported order. -/
theorem reported_order_deterministic_witness :
    reported_slide_order [[3], [1, 2]] = reported_slide_order [[1, 2], [3]] ∧
    List.Sorted (fun a b : Nat => a ≤ b) (reported_slide_order [[3], [1, 2]]) :=
  ⟨reported_order_deterministic.2 [[3], [1, 2]] [[1, 2], [3]] (List.Perm.swap _ _ _),
   (reported_order_deterministic.1 [[3], [1, 2]]).1⟩

/-- `TileInfo` (src/wsi/tile.py:893-922): per-tile record with scaled bounds,
original-resolution bounds and tissue percentage. -/
structure TileInfo where
  tile_num : Nat
  r : Nat
  c : Nat
  r_s : Nat
  r_e : Nat
  c_s : Nat
  c_e : Nat
  o_r_s : Nat
  o_r_e : Nat
  o_c_s : Nat
  o_c_e : Nat
  tissue_percentage : ℚ
deriving DecidableEq, Repr

/-- `TileSummary` (src/wsi/tile.py:833-872): per-slide aggregate. -/
structure TileSummary where
  slide_num : Nat
  orig_w : Nat
  orig_h : Nat
  orig_tile_w : Nat
  orig_tile_h : Nat
  scale_factor : Nat
  scaled_w : Nat
  scaled_h : Nat
  scaled_tile_w : Nat
  scaled_tile_h : Nat
  tissue_percentage : ℚ
  num_col_tiles : Nat
  num_row_tiles : Nat
  count : Nat
  high : Nat
  medium : Nat
  low : Nat
  none : Nat
  tiles : List TileInfo
deriving DecidableEq, Repr

/-- Modelled from the spec: `slide.small_to_large_mapping` lives in
`wsi/slide.py`, which is not in src/.  Spec section 4.2 maps each scaled
coordinate independently by `original = round(scaled * s)` with the integer
scale factor `s`; the product of integers is exact, so the round is the
identity.  The `large_dimensions` argument of the Python call is unused by
the spec's formula. -/
def small_to_large_mapping (small_pixel large_dimensions : Nat × Nat) : Nat × Nat :=
  (SCALE_FACTOR * small_pixel.1, SCALE_FACTOR * small_pixel.2)

/-- `row_tile_size = round(ROW_TILE_SIZE / slide.SCALE_FACTOR)`
(src/wsi/tile.py:494), with the spec-modelled `SCALE_FACTOR`. -/
def scaled_row_tile_size : Nat := (round ((ROW_TILE_SIZE : ℚ) / (SCALE_FACTOR : ℚ))).toNat

/-- `col_tile_size = round(COL_TILE_SIZE / slide.SCALE_FACTOR)`
(src/wsi/tile.py:495). -/
def scaled_col_tile_size : Nat := (round ((COL_TILE_SIZE : ℚ) / (SCALE_FACTOR : ℚ))).toNat

/-- The per-axis pixel adjustment of `compute_tile_summary`
(src/wsi/tile.py:526-530): `if (o_e - o_s) > tile_size: o_e -= 1`, applied to
the mapped end coordinate only. -/
def end_adjust (o_s o_e tile_size : Nat) : Nat :=
  if o_e - o_s > tile_size then o_e - 1 else o_e

/-- Accumulator of the `for t in tile_indices` loop of `compute_tile_summary`
(src/wsi/tile.py:512-543): the running counters and the tiles appended so
far. -/
structure TileAcc where
  count : Nat
  high : Nat
  medium : Nat
  low : Nat
  none : Nat
  tiles : List TileInfo

/-- The `TileInfo(count, r, c, r_s, r_e, c_s, c_e, o_r_s, o_r_e, o_c_s,
o_c_e, t_p)` built in the loop body (src/wsi/tile.py:523-532), including the
independent mapping of both endpoints to original space and the per-axis
pixel adjustment of the end coordinates. -/
def mk_tile_info (count : Nat) (t : TileIndex) (o_w o_h : Nat) (t_p : ℚ) : TileInfo :=
  let o_start := small_to_large_mapping (t.c_s, t.r_s) (o_w, o_h)
  let o_end := small_to_large_mapping (t.c_e, t.r_e) (o_w, o_h)
  let o_c_e := end_adjust o_start.1 o_end.1 COL_TILE_SIZE
  let o_r_e := end_adjust o_start.2 o_end.2 ROW_TILE_SIZE
  { tile_num := count, r := t.r, c := t.c, r_s := t.r_s, r_e := t.r_e,
    c_s := t.c_s, c_e := t.c_e, o_r_s := o_start.2, o_r_e := o_r_e,
    o_c_s := o_start.1, o_c_e := o_c_e, tissue_percentage := t_p }

/-- One iteration of the `compute_tile_summary` loop (src/wsi/tile.py:518-543)
for tile index record `t`.  The injected `tpf` stands for
`filter.tissue_percent(np_img[r_s:r_e, c_s:c_e])`, the external
tissue-percentage collaborator, as a function of the region coordinates. -/
def tile_loop_step (tpf : Nat → Nat → Nat → Nat → ℚ) (o_w o_h : Nat)
    (acc : TileAcc) (t : TileIndex) : TileAcc :=
  let count := acc.count + 1
  let t_p := tpf t.r_s t.r_e t.c_s t.c_e
  let tile_info := mk_tile_info count t o_w o_h t_p
  let amount := tissue_quantity t_p
  { count := count
    high := if amount = TissueQuantity.HIGH then acc.high + 1 else acc.high
    medium := if amount = TissueQuantity.MEDIUM then acc.medium + 1 else acc.medium
    low := if amount = TissueQuantity.LOW then acc.low + 1 else acc.low
    none := if amount = TissueQuantity.NONE then acc.none + 1 else acc.none
    tiles := acc.tiles ++ [tile_info] }

/-- `compute_tile_summary` (src/wsi/tile.py:475-551).  `o_w, o_h, w, h` are
the dimensions parsed from the image filename, `whole_tp` the whole-image
`filter.tissue_percent(np_img)`, `tpf` the per-region tissue-percentage
collaborator. -/
def compute_tile_summary (slide_num o_w o_h w h : Nat) (whole_tp : ℚ)
    (tpf : Nat → Nat → Nat → Nat → ℚ) : TileSummary :=
  let row_tile_size := scaled_row_tile_size
  let col_tile_size := scaled_col_tile_size
  let nums := get_num_tiles h w row_tile_size col_tile_size
  let tile_indices := get_tile_indices h w row_tile_size col_tile_size
  let acc := tile_indices.foldl (tile_loop_step tpf o_w o_h)
    { count := 0, high := 0, medium := 0, low := 0, none := 0, tiles := [] }
  { slide_num := slide_num
    orig_w := o_w
    orig_h := o_h
    orig_tile_w := COL_TILE_SIZE
    orig_tile_h := ROW_TILE_SIZE
    scale_factor := SCALE_FACTOR
    scaled_w := w
    scaled_h := h
    scaled_tile_w := col_tile_size
    scaled_tile_h := row_tile_size
    tissue_percentage := whole_tp
    num_col_tiles := nums.2
    num_row_tiles := nums.1
    count := acc.count
    high := acc.high
    medium := acc.medium
    low := acc.low
    none := acc.none
    tiles := acc.tiles }

lemma scaled_row_tile_size_eq : scaled_row_tile_size = 32 := by
  unfold scaled_row_tile_size ROW_TILE_SIZE SCALE_FACTOR
  norm_num
  rfl

lemma scaled_col_tile_size_eq : scaled_col_tile_size = 32 := by
  unfold scaled_col_tile_size COL_TILE_SIZE SCALE_FACTOR
  norm_num
  rfl

lemma tile_loop_step_count (tpf : Nat → Nat → Nat → Nat → ℚ) (o_w o_h : Nat)
    (acc : TileAcc) (t : TileIndex) :
    (tile_loop_step tpf o_w o_h acc t).count = acc.count + 1 := rfl

lemma tile_loop_step_tiles (tpf : Nat → Nat → Nat → Nat → ℚ) (o_w o_h : Nat)
    (acc : TileAcc) (t : TileIndex) :
    (tile_loop_step tpf o_w o_h acc t).tiles =
      acc.tiles ++ [mk_tile_info (acc.count + 1) t o_w o_h (tpf t.r_s t.r_e t.c_s t.c_e)] := rfl

lemma tile_loop_step_high (tpf : Nat → Nat → Nat → Nat → ℚ) (o_w o_h : Nat)
    (acc : TileAcc) (t : TileIndex) :
    (tile_loop_step tpf o_w o_h acc t).high =
      if tissue_quantity (tpf t.r_s t.r_e t.c_s t.c_e) = TissueQuantity.HIGH
      then acc.high + 1 else acc.high := rfl

lemma tile_loop_step_medium (tpf : Nat → Nat → Nat → Nat → ℚ) (o_w o_h : Nat)
    (acc : TileAcc) (t : TileIndex) :
    (tile_loop_step tpf o_w o_h acc t).medium =
      if tissue_quantity (tpf t.r_s t.r_e t.c_s t.c_e) = TissueQuantity.MEDIUM
      then acc.medium + 1 else acc.medium := rfl

lemma tile_loop_step_low (tpf : Nat → Nat → Nat → Nat → ℚ) (o_w o_h : Nat)
    (acc : TileAcc) (t : TileIndex) :
    (tile_loop_step tpf o_w o_h acc t).low =
      if tissue_quantity (tpf t.r_s t.r_e t.c_s t.c_e) = TissueQuantity.LOW
      then acc.low + 1 else acc.low := rfl

lemma tile_loop_step_none (tpf : Nat → Nat → Nat → Nat → ℚ) (o_w o_h : Nat)
    (acc : TileAcc) (t : TileIndex) :
    (tile_loop_step tpf o_w o_h acc t).none =
      if tissue_quantity (tpf t.r_s t.r_e t.c_s t.c_e) = TissueQuantity.NONE
      then acc.none + 1 else acc.none := rfl

lemma mk_tile_info_fields (count : Nat) (t : TileIndex) (o_w o_h : Nat) (t_p : ℚ) :
    (mk_tile_info count t o_w o_h t_p).tissue_percentage = t_p ∧
    (mk_tile_info count t o_w o_h t_p).c_s = t.c_s ∧
    (mk_tile_info count t o_w o_h t_p).r_s = t.r_s ∧
    (mk_tile_info count t o_w o_h t_p).c_e = t.c_e ∧
    (mk_tile_info count t o_w o_h t_p).r_e = t.r_e ∧
    (mk_tile_info count t o_w o_h t_p).o_c_s = SCALE_FACTOR * t.c_s ∧
    (mk_tile_info count t o_w o_h t_p).o_r_s = SCALE_FACTOR * t.r_s ∧
    (mk_tile_info count t o_w o_h t_p).o_c_e =
      end_adjust (SCALE_FACTOR * t.c_s) (SCALE_FACTOR * t.c_e) COL_TILE_SIZE ∧
    (mk_tile_info count t o_w o_h t_p).o_r_e =
      end_adjust (SCALE_FACTOR * t.r_s) (SCALE_FACTOR * t.r_e) ROW_TILE_SIZE :=
  ⟨rfl, rfl, rfl, rfl, rfl, rfl, rfl, rfl, rfl⟩

/-- Loop invariant of the accumulator: the counters track the tile list. -/
def tile_acc_inv (acc : TileAcc) : Prop :=
  acc.count = acc.tiles.length ∧
  acc.high = acc.tiles.countP
    (fun x => decide (tissue_quantity x.tissue_percentage = TissueQuantity.HIGH)) ∧
  acc.medium = acc.tiles.countP
    (fun x => decide (tissue_quantity x.tissue_percentage = TissueQuantity.MEDIUM)) ∧
  acc.low = acc.tiles.countP
    (fun x => decide (tissue_quantity x.tissue_percentage = TissueQuantity.LOW)) ∧
  acc.none = acc.tiles.countP
    (fun x => decide (tissue_quantity x.tissue_percentage = TissueQuantity.NONE)) ∧
  acc.count = acc.high + acc.medium + acc.low + acc.none

lemma tile_loop_step_inv (tpf : Nat → Nat → Nat → Nat → ℚ) (o_w o_h : Nat)
    (t : TileIndex) (acc : TileAcc) (h : tile_acc_inv acc) :
    tile_acc_inv (tile_loop_step tpf o_w o_h acc t) := by
  obtain ⟨h1, h2, h3, h4, h5, h6⟩ := h
  have htp := (mk_tile_info_fields (acc.count + 1) t o_w o_h (tpf t.r_s t.r_e t.c_s t.c_e)).1
  unfold tile_acc_inv
  rw [tile_loop_step_count, tile_loop_step_tiles, tile_loop_step_high, tile_loop_step_medium,
    tile_loop_step_low, tile_loop_step_none]
  simp only [List.countP_append, List.length_append, List.countP_cons, List.countP_nil,
    List.length_cons, List.length_nil, htp]
  rcases tissue_quantity_cases (tpf t.r_s t.r_e t.c_s t.c_e) with
    ⟨_, hq⟩ | ⟨_, _, hq⟩ | ⟨_, _, hq⟩ | ⟨_, hq⟩ <;>
    rw [hq] <;> simp <;> omega

lemma tile_loop_foldl_inv (tpf : Nat → Nat → Nat → Nat → ℚ) (o_w o_h : Nat)
    (l : List TileIndex) (acc : TileAcc) (h : tile_acc_inv acc) :
    tile_acc_inv (l.foldl (tile_loop_step tpf o_w o_h) acc) := by
  induction l generalizing acc with
  | nil => exact h
  | cons hd tl ih => exact ih _ (tile_loop_step_inv tpf o_w o_h hd acc h)

/-- C6: bucket-count invariant.  In every summary produced by
`compute_tile_summary`, `high + medium + low + none = count`, `count` is the
number of tiles, and each bucket count is the number of tiles whose tissue
percentage classifies into that bucket. -/
theorem tile_summary_bucket_counts (slide_num o_w o_h w h : Nat) (whole_tp : ℚ)
    (tpf : Nat → Nat → Nat → Nat → ℚ) :
    (compute_tile_summary slide_num o_w o_h w h whole_tp tpf).high +
        (compute_tile_summary slide_num o_w o_h w h whole_tp tpf).medium +
        (compute_tile_summary slide_num o_w o_h w h whole_tp tpf).low +
        (compute_tile_summary slide_num o_w o_h w h whole_tp tpf).none =
      (compute_tile_summary slide_num o_w o_h w h whole_tp tpf).count ∧
    (compute_tile_summary slide_num o_w o_h w h whole_tp tpf).count =
      (compute_tile_summary slide_num o_w o_h w h whole_tp tpf).tiles.length ∧
    (compute_tile_summary slide_num o_w o_h w h whole_tp tpf).high =
      (compute_tile_summary slide_num o_w o_h w h whole_tp tpf).tiles.countP
        (fun x => decide (tissue_quantity x.tissue_percentage = TissueQuantity.HIGH)) ∧
    (compute_tile_summary slide_num o_w o_h w h whole_tp tpf).medium =
      (compute_tile_summary slide_num o_w o_h w h whole_tp tpf).tiles.countP
        (fun x => decide (tissue_quantity x.tissue_percentage = TissueQuantity.MEDIUM)) ∧
    (compute_tile_summary slide_num o_w o_h w h whole_tp tpf).low =
      (compute_tile_summary slide_num o_w o_h w h whole_tp tpf).tiles.countP
        (fun x => decide (tissue_quantity x.tissue_percentage = TissueQuantity.LOW)) ∧
    (compute_tile_summary slide_num o_w o_h w h whole_tp tpf).none =
      (compute_tile_summary slide_num o_w o_h w h whole_tp tpf).tiles.countP
        (fun x => decide (tissue_quantity x.tissue_percentage = TissueQuantity.NONE)) := by
  obtain ⟨h1, h2, h3, h4, h5, h6⟩ := tile_loop_foldl_inv tpf o_w o_h
    (get_tile_indices h w scaled_row_tile_size scaled_col_tile_size)
    { count := 0, high := 0, medium := 0, low := 0, none := 0, tiles := [] }
    ⟨rfl, rfl, rfl, rfl, rfl, rfl⟩
  exact ⟨h6.symm, h1, h2, h3, h4, h5⟩

/-- Every tile produced by the Grid Partitioner spans at most one tile size
on each axis. -/
lemma tile_extent_le (rows cols rts cts : Nat) :
    ∀ t ∈ get_tile_indices rows cols rts cts,
      t.r_e - t.r_s ≤ rts ∧ t.c_e - t.c_s ≤ cts := by
  intro t ht
  rw [get_tile_indices_eq, List.mem_map] at ht
  obtain ⟨i, hi, rfl⟩ := ht
  set m := (get_num_tiles rows cols rts cts).1 with hm
  set n := (get_num_tiles rows cols rts cts).2 with hn
  have hmdef : m = ceil_div rows rts := rfl
  have hndef : n = ceil_div cols cts := rfl
  clear_value m n
  clear hm hn
  have hiN : i < m * n := List.mem_range.mp hi
  have hnpos : 0 < n := by
    rcases Nat.eq_zero_or_pos n with h0 | h0
    · rw [h0, Nat.mul_zero] at hiN
      omega
    · exact h0
  have hr : i / n < m := by
    rw [Nat.div_lt_iff_lt_mul hnpos]
    omega
  have hc : i % n < n := Nat.mod_lt _ hnpos
  dsimp only [mk_tile_index]
  constructor
  · by_cases hlast : i / n < m - 1
    · rw [if_pos hlast, Nat.add_mul, Nat.one_mul]
      omega
    · rw [if_neg hlast]
      have hrts : 0 < rts := by
        rcases Nat.eq_zero_or_pos rts with h0 | h0
        · exfalso
          have hz : m = 0 := by
            rw [hmdef, h0]
            unfold ceil_div
            exact Nat.div_zero _
          omega
        · exact h0
      have hle : rows ≤ m * rts := hmdef ▸ le_ceil_div_mul hrts
      have hs : m * rts = (m - 1) * rts + rts := by
        have hm1 : m = (m - 1) + 1 := by omega
        calc m * rts = ((m - 1) + 1) * rts := by rw [← hm1]
        _ = (m - 1) * rts + 1 * rts := Nat.add_mul _ _ _
        _ = (m - 1) * rts + rts := by rw [Nat.one_mul]
      have hieq : i / n = m - 1 := by omega
      rw [hieq]
      omega
  · by_cases hlast : i % n < n - 1
    · rw [if_pos hlast, Nat.add_mul, Nat.one_mul]
      omega
    · rw [if_neg hlast]
      have hcts : 0 < cts := by
        rcases Nat.eq_zero_or_pos cts with h0 | h0
        · exfalso
          have hz : n = 0 := by
            rw [hndef, h0]
            unfold ceil_div
            exact Nat.div_zero _
          omega
        · exact h0
      have hle : cols ≤ n * cts := hndef ▸ le_ceil_div_mul hcts
      have hs : n * cts = (n - 1) * cts + cts := by
        have hn1 : n = (n - 1) + 1 := by omega
        calc n * cts = ((n - 1) + 1) * cts := by rw [← hn1]
        _ = (n - 1) * cts + 1 * cts := Nat.add_mul _ _ _
        _ = (n - 1) * cts + cts := by rw [Nat.one_mul]
      have hieq : i % n = n - 1 := by omega
      rw [hieq]
      omega

lemma tile_loop_foldl_fields (tpf : Nat → Nat → Nat → Nat → ℚ) (o_w o_h : Nat)
    (l : List TileIndex) (acc : TileAcc)
    (hl : ∀ t ∈ l, SCALE_FACTOR * (t.c_e - t.c_s) ≤ COL_TILE_SIZE ∧
      SCALE_FACTOR * (t.r_e - t.r_s) ≤ ROW_TILE_SIZE)
    (hacc : ∀ x ∈ acc.tiles, x.o_c_s = SCALE_FACTOR * x.c_s ∧
      x.o_r_s = SCALE_FACTOR * x.r_s ∧
      x.o_c_e - x.o_c_s ≤ COL_TILE_SIZE ∧ x.o_r_e - x.o_r_s ≤ ROW_TILE_SIZE) :
    ∀ x ∈ (l.foldl (tile_loop_step tpf o_w o_h) acc).tiles,
      x.o_c_s = SCALE_FACTOR * x.c_s ∧ x.o_r_s = SCALE_FACTOR * x.r_s ∧
      x.o_c_e - x.o_c_s ≤ COL_TILE_SIZE ∧ x.o_r_e - x.o_r_s ≤ ROW_TILE_SIZE := by
  induction l generalizing acc with
  | nil => exact hacc
  | cons hd tl ih =>
    refine ih _ (fun t ht => hl t (List.mem_cons_of_mem hd ht)) ?_
    intro x hx
    rw [tile_loop_step_tiles] at hx
    rcases List.mem_append.mp hx with hx | hx
    · exact hacc x hx
    · have hx1 := List.mem_singleton.mp hx
      subst hx1
      obtain ⟨hcb, hrb⟩ := hl hd (List.mem_cons_self hd tl)
      obtain ⟨f1, f2, f3, f4, f5, f6, f7, f8, f9⟩ :=
        mk_tile_info_fields (acc.count + 1) hd o_w o_h (tpf hd.r_s hd.r_e hd.c_s hd.c_e)
      rw [f2, f3, f6, f7, f8, f9]
      have hcdiff : SCALE_FACTOR * hd.c_e - SCALE_FACTOR * hd.c_s ≤ COL_TILE_SIZE := by
        rw [← Nat.mul_sub]
        exact hcb
      have hrdiff : SCALE_FACTOR * hd.r_e - SCALE_FACTOR * hd.r_s ≤ ROW_TILE_SIZE := by
        rw [← Nat.mul_sub]
        exact hrb
      refine ⟨rfl, rfl, ?_, ?_⟩
      · unfold end_adjust
        rw [if_neg (not_lt.mpr hcdiff)]
        exact hcdiff
      · unfold end_adjust
        rw [if_neg (not_lt.mpr hrdiff)]
        exact hrdiff

/-- C3: Coordinate Remapper correction rule.  If the mapped original-space
size on an axis exceeds the canonical tile size, the mapped end coordinate is
decremented by 1; otherwise the axis is untouched.  The start coordinates are
never changed (in every summary tile they equal the mapped scaled starts),
and in every tile of any computed summary the original-space width and height
never exceed the canonical original tile width and height. -/
theorem remap_correction_rule :
    (∀ o_s o_e tile_size : Nat, o_e - o_s > tile_size →
      end_adjust o_s o_e tile_size = o_e - 1) ∧
    (∀ o_s o_e tile_size : Nat, ¬(o_e - o_s > tile_size) →
      end_adjust o_s o_e tile_size = o_e) ∧
    (∀ slide_num o_w o_h w h : Nat, ∀ whole_tp : ℚ,
      ∀ tpf : Nat → Nat → Nat → Nat → ℚ,
      ∀ x ∈ (compute_tile_summary slide_num o_w o_h w h whole_tp tpf).tiles,
        x.o_c_s = SCALE_FACTOR * x.c_s ∧ x.o_r_s = SCALE_FACTOR * x.r_s ∧
        x.o_c_e - x.o_c_s ≤ COL_TILE_SIZE ∧ x.o_r_e - x.o_r_s ≤ ROW_TILE_SIZE) := by
  refine ⟨fun o_s o_e ts h => by unfold end_adjust; rw [if_pos h],
    fun o_s o_e ts h => by unfold end_adjust; rw [if_neg h], ?_⟩
  intro slide_num o_w o_h w h whole_tp tpf x hx
  have hext := tile_extent_le h w scaled_row_tile_size scaled_col_tile_size
  refine tile_loop_foldl_fields tpf o_w o_h
    (get_tile_indices h w scaled_row_tile_size scaled_col_tile_size)
    { count := 0, high := 0, medium := 0, low := 0, none := 0, tiles := [] }
    ?_ (fun x hx => absurd hx (List.not_mem_nil x)) x hx
  intro t ht
  obtain ⟨hre, hce⟩ := hext t ht
  rw [scaled_col_tile_size_eq] at hce
  rw [scaled_row_tile_size_eq] at hre
  constructor
  · exact le_trans (Nat.mul_le_mul_left SCALE_FACTOR hce) (by decide)
  · exact le_trans (Nat.mul_le_mul_left SCALE_FACTOR hre) (by decide)

lemma compute_tile_summary_tiles (slide_num o_w o_h w h : Nat) (whole_tp : ℚ)
    (tpf : Nat → Nat → Nat → Nat → ℚ) :
    (compute_tile_summary slide_num o_w o_h w h whole_tp tpf).tiles =
      ((get_tile_indices h w scaled_row_tile_size scaled_col_tile_size).foldl
        (tile_loop_step tpf o_w o_h)
        { count := 0, high := 0, medium := 0, low := 0, none := 0, tiles := [] }).tiles := rfl

/-- Witness for C3: the overshoot case `[0,1025)` is trimmed to `[0,1024)`,
an in-range end is untouched, and a concrete summary tile of a 64×64 scaled
image keeps original width `1024 - 0 ≤ 1024`. -/
theorem remap_correction_rule_witness :
    end_adjust 0 1025 1024 = 1025 - 1 ∧
    end_adjust 0 1000 1024 = 1000 ∧
    ((⟨1, 1, 1, 0, 32, 0, 32, 0, 1024, 0, 1024, 50⟩ : TileInfo).o_c_e -
      (⟨1, 1, 1, 0, 32, 0, 32, 0, 1024, 0, 1024, 50⟩ : TileInfo).o_c_s ≤ COL_TILE_SIZE) :=
  ⟨remap_correction_rule.1 0 1025 1024 (by decide),
   remap_correction_rule.2.1 0 1000 1024 (by decide),
   (remap_correction_rule.2.2 1 2048 2048 64 64 0 (fun _ _ _ _ => 50)
     ⟨1, 1, 1, 0, 32, 0, 32, 0, 1024, 0, 1024, 50⟩
     (by rw [compute_tile_summary_tiles, scaled_row_tile_size_eq, scaled_col_tile_size_eq]
         decide)).2.2.1⟩

/-- `TileSummary.tiles_by_tissue_percentage` (src/wsi/tile.py:883-885):
`sorted(self.tiles, key=lambda t: t.tissue_percentage, reverse=True)`.
Python's `sorted` is stable; a stable descending sort is the stable merge
sort under the relation `b.tissue_percentage ≤ a.tissue_percentage`. -/
def tiles_by_tissue_percentage (ts : TileSummary) : List TileInfo :=
  ts.tiles.mergeSort fun a b => decide (b.tissue_percentage ≤ a.tissue_percentage)

/-- `TileSummary.top_tiles` (src/wsi/tile.py:887-890): `sorted_tiles[:100]`. -/
def top_tiles (ts : TileSummary) : List TileInfo :=
  (tiles_by_tissue_percentage ts).take 100

lemma tile_desc_trans (a b c : TileInfo) :
    decide (b.tissue_percentage ≤ a.tissue_percentage) →
    decide (c.tissue_percentage ≤ b.tissue_percentage) →
    decide (c.tissue_percentage ≤ a.tissue_percentage) := by
  simp only [decide_eq_true_eq]
  exact fun h1 h2 => le_trans h2 h1

lemma tile_desc_total (a b : TileInfo) :
    decide (b.tissue_percentage ≤ a.tissue_percentage) ||
      decide (a.tissue_percentage ≤ b.tissue_percentage) := by
  simp only [Bool.or_eq_true, decide_eq_true_eq]
  exact le_total _ _

/-- Stability of merge sort, filter form: a class of mutually `le`-related
elements appears in the sorted list exactly as it appears in the input. -/
lemma filter_mergeSort_eq {α : Type} (le : α → α → Bool)
    (htrans : ∀ a b c, le a b → le b c → le a c)
    (htotal : ∀ a b, le a b || le b a)
    (p : α → Bool) (l : List α) (hp : ∀ a b, p a → p b → le a b) :
    (l.mergeSort le).filter p = l.filter p := by
  have hsub : List.Sublist (l.filter p) l := List.filter_sublist l
  have hpw : (l.filter p).Pairwise fun a b => le a b = true :=
    List.pairwise_of_forall_mem_list fun a ha b hb =>
      hp a b (List.of_mem_filter ha) (List.of_mem_filter hb)
  have h1 : List.Sublist (l.filter p) (l.mergeSort le) :=
    List.sublist_mergeSort htrans htotal hpw hsub
  have h2 : List.Sublist ((l.filter p).filter p) ((l.mergeSort le).filter p) := h1.filter p
  have heq : (l.filter p).filter p = l.filter p :=
    List.filter_eq_self.mpr fun a ha => List.of_mem_filter ha
  rw [heq] at h2
  have h3 : ((l.mergeSort le).filter p).length = (l.filter p).length :=
    ((List.mergeSort_perm l le).filter p).length_eq
  exact (h2.eq_of_length h3.symm).symm

/-- C5: Top-Tile Selector.  Selection returns exactly `min 100 count` tiles,
sorted descending by tissue percentage; equal-percentage tiles keep the
summary's original ordering (stability, stated per percentage class); the
output is the 100-prefix of the stable descending sort; and repeated
invocation on the unchanged summary returns the identical list. -/
theorem top_tiles_spec (ts : TileSummary) :
    (top_tiles ts).length = min 100 ts.tiles.length ∧
    List.Sorted (fun a b : TileInfo => b.tissue_percentage ≤ a.tissue_percentage)
      (top_tiles ts) ∧
    (∀ q : ℚ,
      (tiles_by_tissue_percentage ts).filter (fun x => decide (x.tissue_percentage = q)) =
        ts.tiles.filter (fun x => decide (x.tissue_percentage = q))) ∧
    top_tiles ts = (tiles_by_tissue_percentage ts).take 100 ∧
    (∀ ts2 : TileSummary, ts2 = ts → top_tiles ts2 = top_tiles ts) := by
  refine ⟨?_, ?_, ?_, rfl, fun ts2 h => by rw [h]⟩
  · unfold top_tiles tiles_by_tissue_percentage
    rw [List.length_take, List.length_mergeSort]
  · have hs := List.sorted_mergeSort tile_desc_trans tile_desc_total ts.tiles
    have hp := hs.sublist (List.take_sublist 100 _)
    exact hp.imp fun h => of_decide_eq_true h
  · intro q
    refine filter_mergeSort_eq _ tile_desc_trans tile_desc_total _ _ ?_
    intro a b ha hb
    have ha2 : a.tissue_percentage = q := of_decide_eq_true ha
    have hb2 : b.tissue_percentage = q := of_decide_eq_true hb
    simp [ha2, hb2]

/-- Witness for C5 on a concrete two-tile summary with a tie. -/
theorem top_tiles_spec_witness :
    (top_tiles ⟨4, 0, 0, 0, 0, 0, 0, 0, 0, 0, 0, 0, 0, 2, 0, 0, 0, 0,
        [⟨1, 1, 1, 0, 1, 0, 1, 0, 1, 0, 1, 55⟩,
         ⟨2, 1, 2, 0, 1, 1, 2, 0, 1, 1, 2, 55⟩]⟩).length =
      min 100 2 ∧
    top_tiles ⟨4, 0, 0, 0, 0, 0, 0, 0, 0, 0, 0, 0, 0, 2, 0, 0, 0, 0,
        [⟨1, 1, 1, 0, 1, 0, 1, 0, 1, 0, 1, 55⟩,
         ⟨2, 1, 2, 0, 1, 1, 2, 0, 1, 1, 2, 55⟩]⟩ =
      top_tiles ⟨4, 0, 0, 0, 0, 0, 0, 0, 0, 0, 0, 0, 0, 2, 0, 0, 0, 0,
        [⟨1, 1, 1, 0, 1, 0, 1, 0, 1, 0, 1, 55⟩,
         ⟨2, 1, 2, 0, 1, 1, 2, 0, 1, 1, 2, 55⟩]⟩ :=
  ⟨(top_tiles_spec _).1,
   (top_tiles_spec _).2.2.2.2 _ rfl⟩

/-- `tiles_by_tissue_percentage` as a state transformer on the summary:
Python's `sorted` allocates a fresh list and does not mutate `self.tiles`,
so the post-state is the input summary itself. -/
def tiles_by_tissue_percentage_run (ts : TileSummary) : List TileInfo × TileSummary :=
  (ts.tiles.mergeSort fun a b => decide (b.tissue_percentage ≤ a.tissue_percentage), ts)

/-- `top_tiles` as a state transformer: the slice `sorted_tiles[:100]` also
allocates a fresh list and never writes the summary. -/
def top_tiles_run (ts : TileSummary) : List TileInfo × TileSummary :=
  ((tiles_by_tissue_percentage_run ts).1.take 100, (tiles_by_tissue_percentage_run ts).2)

/-- C9: frame property of selection.  Running top-tile selection (or the
underlying sort) leaves the summary unmodified: the post-state equals the
input summary, its tile sequence keeps its length, elements and order, every
other field is unchanged, and the returned list is the pure `top_tiles`
value. -/
theorem top_tiles_frame (ts : TileSummary) :
    (top_tiles_run ts).2 = ts ∧
    (tiles_by_tissue_percentage_run ts).2 = ts ∧
    (top_tiles_run ts).2.tiles = ts.tiles ∧
    (top_tiles_run ts).2.tiles.length = ts.tiles.length ∧
    (top_tiles_run ts).2.slide_num = ts.slide_num ∧
    (top_tiles_run ts).2.orig_w = ts.orig_w ∧
    (top_tiles_run ts).2.orig_h = ts.orig_h ∧
    (top_tiles_run ts).2.orig_tile_w = ts.orig_tile_w ∧
    (top_tiles_run ts).2.orig_tile_h = ts.orig_tile_h ∧
    (top_tiles_run ts).2.scale_factor = ts.scale_factor ∧
    (top_tiles_run ts).2.scaled_w = ts.scaled_w ∧
    (top_tiles_run ts).2.scaled_h = ts.scaled_h ∧
    (top_tiles_run ts).2.scaled_tile_w = ts.scaled_tile_w ∧
    (top_tiles_run ts).2.scaled_tile_h = ts.scaled_tile_h ∧
    (top_tiles_run ts).2.tissue_percentage = ts.tissue_percentage ∧
    (top_tiles_run ts).2.num_col_tiles = ts.num_col_tiles ∧
    (top_tiles_run ts).2.num_row_tiles = ts.num_row_tiles ∧
    (top_tiles_run ts).2.count = ts.count ∧
    (top_tiles_run ts).2.high = ts.high ∧
    (top_tiles_run ts).2.medium = ts.medium ∧
    (top_tiles_run ts).2.low = ts.low ∧
    (top_tiles_run ts).2.none = ts.none ∧
    (top_tiles_run ts).1 = top_tiles ts :=
  ⟨rfl, rfl, rfl, rfl, rfl, rfl, rfl, rfl, rfl, rfl, rfl, rfl, rfl, rfl, rfl, rfl,
   rfl, rfl, rfl, rfl, rfl, rfl, rfl⟩

end Wsi
